import Mathlib

/-!
Verification of the uberwelle generative audio engine.

The definitions below are a shallow embedding of the TypeScript source:
note utilities (noteUtils), the lookahead clock (clock), the pattern
player (patternPlayer), the pad and bass synthesizers (padSynth,
bassSynth), the block player (blockPlayer) and the set player (setPlayer).
Machine floats are modelled as rationals (exact) or reals (frequencies);
Web Audio gain-parameter automation is modelled as an explicit event list
with a linear-interpolation evaluator.
-/

/-! ### Note utilities (noteUtils) -/

/-- Note name to semitone offset within an octave, mirrors NOTE_OFFSETS. -/
def NOTE_OFFSETS : List (String × Nat) :=
  [("C", 0),
   ("C#", 1), ("Db", 1),
   ("D", 2),
   ("D#", 3), ("Eb", 3),
   ("E", 4),
   ("F", 5),
   ("F#", 6), ("Gb", 6),
   ("G", 7),
   ("G#", 8), ("Ab", 8),
   ("A", 9),
   ("A#", 10), ("Bb", 10),
   ("B", 11)]

/-- Decimal value of a digit list, mirrors parseInt on a digits-only string. -/
def digitsVal (l : List Char) : Nat :=
  l.foldl (fun a c => 10 * a + (c.toNat - 48)) 0

/-- Whether a character is a note letter, i.e. matches [A-Ga-g]. -/
def isNoteLetter (c : Char) : Bool :=
  (('A' ≤ c && c ≤ 'G') || ('a' ≤ c && c ≤ 'g'))

/-- Parse a note name against the regex [A-Ga-g][#b]? followed by digits
(the anchored regex of noteNameToMidi); returns the note letter, the
optional accidental and the parsed octave number. -/
def parseNoteName (s : String) : Option (Char × Option Char × Nat) :=
  match s.data with
  | [] => none
  | c :: rest =>
    if isNoteLetter c then
      match rest with
      | [] => none
      | c2 :: rest2 =>
        if c2 = '#' ∨ c2 = 'b' then
          if rest2 ≠ [] ∧ rest2.all Char.isDigit then
            some (c, some c2, digitsVal rest2)
          else none
        else
          if rest.all Char.isDigit then
            some (c, none, digitsVal rest)
          else none
    else none

/-- The note-part string with its first letter upper-cased, as computed by
noteNameToMidi before the NOTE_OFFSETS lookup. -/
def noteUpperString (c : Char) (acc : Option Char) : String :=
  String.mk (c.toUpper :: (match acc with | some a => [a] | none => []))

/-- Parse note name (for instance C4 or F#2) to MIDI note number;
invalid names default to 60 (middle C), mirrors noteNameToMidi. -/
def noteNameToMidi (noteName : String) : Nat :=
  match parseNoteName noteName with
  | none => 60
  | some (c, acc, octave) =>
    match List.lookup (noteUpperString c acc) NOTE_OFFSETS with
    | none => 60
    | some offset => 12 * (octave + 1) + offset

/-- Convert a MIDI note to a note name, mirrors midiToNoteName:
noteNames[midi % 12] followed by floor(midi / 12) - 1. -/
def midiToNoteName (midi : Nat) : String :=
  let noteNames :=
    ["C", "C#", "D", "D#", "E", "F"] ++ ["F#", "G", "G#", "A", "A#", "B"]
  (noteNames.getD (midi % 12) "") ++ toString ((midi : Int) / 12 - 1)

/-- Convert a MIDI note number to a frequency, A4 (MIDI 69) is 440 Hz;
mirrors midiToFrequency, with the float arithmetic read over the reals. -/
noncomputable def midiToFrequency (midiNote : Nat) : ℝ :=
  440 * (2 : ℝ) ^ (((midiNote : ℝ) - 69) / 12)

/-- Convert a note name directly to a frequency, mirrors noteNameToFrequency. -/
noncomputable def noteNameToFrequency (noteName : String) : ℝ :=
  midiToFrequency (noteNameToMidi noteName)

/-- Semitone intervals for a chord quality (already lower-cased),
mirrors the switch in getChordNotes. -/
def chordIntervals (quality : String) : List Nat :=
  if quality = "" ∨ quality = "maj" then [0, 4, 7]
  else if quality = "m" ∨ quality = "min" then [0, 3, 7]
  else if quality = "7" ∨ quality = "dom7" then [0, 4, 7, 10]
  else if quality = "maj7" then [0, 4, 7, 11]
  else if quality = "m7" ∨ quality = "min7" then [0, 3, 7, 10]
  else if quality = "dim" then [0, 3, 6]
  else if quality = "aug" then [0, 4, 8]
  else if quality = "5" then [0, 7]
  else if quality = "sus2" then [0, 2, 7]
  else if quality = "sus4" then [0, 5, 7]
  else [0, 4, 7]

/-- Parse a chord name against the anchored regex [A-G][#b]? followed by
anything: returns the root string and the quality remainder. -/
def parseChordName (s : String) : Option (String × String) :=
  match s.data with
  | [] => none
  | c :: rest =>
    if 'A' ≤ c ∧ c ≤ 'G' then
      match rest with
      | c2 :: rest2 =>
        if c2 = '#' ∨ c2 = 'b' then
          some (String.mk [c, c2], String.mk rest2)
        else
          some (String.mk [c], String.mk rest)
      | [] => some (String.mk [c], "")
    else none

/-- Lower-case a string character by character, mirrors toLowerCase for
the ASCII chord-quality strings involved. -/
def asciiLower (s : String) : String :=
  String.mk (s.data.map Char.toLower)

/-- Get the note names of a chord in a given octave, mirrors getChordNotes:
unparseable chord names fall back to a C major triad in the octave. -/
def getChordNotes (chordName : String) (octave : Nat := 3) : List String :=
  match parseChordName chordName with
  | none =>
    ["C" ++ toString octave, "E" ++ toString octave, "G" ++ toString octave]
  | some (root, quality) =>
    let intervals := chordIntervals (asciiLower quality)
    let rootMidi := noteNameToMidi (root ++ toString octave)
    intervals.map (fun interval => midiToNoteName (rootMidi + interval))

/-! ### Web Audio gain-parameter automation model

An AudioParam's automation timeline is a chronological list of scheduled
events; cancelScheduledValues removes the events at or after the cancel
time, setValueAtTime holds a value from its time on, and
linearRampToValueAtTime interpolates linearly from the previous event. -/

/-- A scheduled automation event on a gain parameter. -/
inductive ParamEvent
  | setValue (v : ℚ) (t : ℚ)
  | linearRamp (v : ℚ) (t : ℚ)
deriving DecidableEq

/-- The time at which an automation event is scheduled. -/
def ParamEvent.time : ParamEvent → ℚ
  | .setValue _ t => t
  | .linearRamp _ t => t

/-- cancelScheduledValues(t): drop every event scheduled at or after t. -/
def cancelScheduledValues (evs : List ParamEvent) (t : ℚ) : List ParamEvent :=
  evs.filter (fun e => e.time < t)

/-- Timeline evaluator: walk the (chronological) event list carrying the
value and time of the last event at or before the query time τ; a ramp
ending after τ interpolates linearly from that carried point. -/
def paramValueFrom (τ : ℚ) : ℚ → ℚ → List ParamEvent → ℚ
  | v0, _, [] => v0
  | v0, _, ParamEvent.setValue v t :: rest =>
    if τ < t then v0 else paramValueFrom τ v t rest
  | v0, t0, ParamEvent.linearRamp v t :: rest =>
    if τ < t then
      if t0 < t ∧ t0 < τ then v0 + (v - v0) * (τ - t0) / (t - t0) else v0
    else paramValueFrom τ v t rest

/-- The value of the gain parameter at time τ (intrinsic value 0,
matching gain nodes created with gain.value = 0). -/
def paramValue (evs : List ParamEvent) (τ : ℚ) : ℚ :=
  paramValueFrom τ 0 0 evs

/-! ### Pad synthesizer (padSynth)

Each voice is keyed by note name; its amplitude envelope is the
automation timeline of its envelope gain node.  Default config:
attack 0.5 s, decay 0.3 s, sustain 0.7, release 2.0 s. -/

def padAttackTime : ℚ := 1 / 2
def padDecayTime : ℚ := 3 / 10
def padSustainLevel : ℚ := 7 / 10
def padReleaseTime : ℚ := 2

/-- Clamp a value to [0, 1], mirrors Math.max(0, Math.min(1, x)). -/
def clamp01 (x : ℚ) : ℚ := max 0 (min 1 x)

/-- The envelope events scheduled by PadSynth.noteOn: value 0 at the
trigger time, linear attack to the peak, linear decay to the sustain. -/
def padNoteOnEvents (time velocity : ℚ) : List ParamEvent :=
  let vel := clamp01 velocity
  let peakLevel := vel * (8 / 10)
  let sustainLevel := peakLevel * padSustainLevel
  [.setValue 0 time,
   .linearRamp peakLevel (time + padAttackTime),
   .linearRamp sustainLevel (time + padAttackTime + padDecayTime)]

/-- The envelope after PadSynth.noteOff at time t: cancel scheduled
events, hold the envelope's current value at t, ramp linearly to 0 over
the release time.  (The source reads envelope.gain.value, the value at
the context's current time; in every stop path modelled here the release
time equals the current time, where that read is paramValue evs t.) -/
def padNoteOffEvents (evs : List ParamEvent) (t : ℚ) : List ParamEvent :=
  cancelScheduledValues evs t ++
    [.setValue (paramValue evs t) t, .linearRamp 0 (t + padReleaseTime)]

/-- The pad synthesizer's voice state: the map of sounding voices (in
insertion order, as a JS Map) plus the envelopes of already-released
voices whose nodes are still ramping down. -/
structure PadState where
  voices : List (String × List ParamEvent)
  released : List (List ParamEvent)
deriving DecidableEq

/-- PadSynth.noteOn: a no-op when the note already has a voice, otherwise
create a voice with the attack/decay envelope. -/
def padNoteOn (s : PadState) (note : String) (time velocity : ℚ) : PadState :=
  if (s.voices.lookup note).isSome then s
  else { s with voices := s.voices ++ [(note, padNoteOnEvents time velocity)] }

/-- PadSynth.noteOff: a no-op when no voice exists for the note, otherwise
schedule the release ramp and remove the voice from the map. -/
def padNoteOff (s : PadState) (note : String) (time : ℚ) : PadState :=
  match s.voices.lookup note with
  | none => s
  | some evs =>
    { voices := s.voices.filter (fun p => p.1 ≠ note),
      released := s.released ++ [padNoteOffEvents evs time] }

/-- PadSynth.chordOn: resolve the chord symbol and noteOn each note. -/
def padChordOn (s : PadState) (chordName : String) (time : ℚ)
    (octave : Nat) (velocity : ℚ) : PadState :=
  (getChordNotes chordName octave).foldl
    (fun st note => padNoteOn st note time velocity) s

/-- PadSynth.allNotesOff: noteOff every sounding voice at the given time.
(The source iterates the keys of the voice map.) -/
def padAllNotesOff (s : PadState) (time : ℚ) : PadState :=
  (s.voices.map Prod.fst).foldl (fun st note => padNoteOff st note time) s

/-! ### Bass synthesizer (bassSynth)

Monophonic with one persistent amplitude-gate gain node; only the gate
automation and the isPlaying flag are modelled (default release 0.15 s). -/

def bassReleaseTime : ℚ := 15 / 100

/-- The bass synthesizer's modelled state: the persistent gate gain
node's automation timeline and the isPlaying flag. -/
structure BassState where
  gateEvents : List ParamEvent
  isPlaying : Bool
deriving DecidableEq

/-- BassSynth.silence: cancel the gate's scheduled values at the current
time and set it to zero there (the hard cut used by stop/panic paths). -/
def bassSilence (s : BassState) (currentTime : ℚ) : BassState :=
  { gateEvents := cancelScheduledValues s.gateEvents currentTime ++
      [.setValue 0 currentTime],
    isPlaying := false }

/-- BassSynth.noteOff: ramp the gate linearly to zero over the release
time (from its current value, held at the release start). -/
def bassNoteOff (s : BassState) (time : ℚ) : BassState :=
  if s.isPlaying then
    { gateEvents := cancelScheduledValues s.gateEvents time ++
        [.setValue (paramValue s.gateEvents time) time,
         .linearRamp 0 (time + bassReleaseTime)],
      isPlaying := false }
  else s

/-! ### Lookahead clock (clock) -/

def STEPS_PER_BEAT : Nat := 4

/-- A callback event fired by Clock.scheduleStep. -/
inductive ClockEvent
  | sixteenth (step : Nat) (time : ℚ)
  | beat (beat : Nat) (time : ℚ)
  | bar (bar : Nat) (time : ℚ)
deriving DecidableEq

/-- Clock.scheduleStep: fire the 16th-note callbacks, the beat callbacks
on steps divisible by 4 (with beat = step / 4), and the bar callbacks on
step 0 (with the current bar), all at the same precise timestamp. -/
def scheduleStep (step : Nat) (time : ℚ) (currentBar : Nat) : List ClockEvent :=
  [ClockEvent.sixteenth step time] ++
    (if step % STEPS_PER_BEAT = 0 then
      [ClockEvent.beat (step / STEPS_PER_BEAT) time] else []) ++
    (if step = 0 then [ClockEvent.bar currentBar time] else [])

/-- The (step, bar) advance performed after each scheduled step in
Clock.schedule: increment the step, wrapping 15 to 0 and incrementing
the bar on wrap. -/
def clockAdvance : Nat × Nat → Nat × Nat
  | (step, bar) => if step + 1 ≥ 16 then (0, bar + 1) else (step + 1, bar)

/-! ### Drum patterns and the pattern player (patternPlayer) -/

/-- The five per-lane 16-step velocity arrays, mirrors DrumPatterns. -/
structure DrumPatterns where
  kick : List ℚ
  snare : List ℚ
  hatClosed : List ℚ
  hatOpen : List ℚ
  clap : List ℚ
deriving DecidableEq

/-- A drum lane name, mirrors keyof DrumPatterns. -/
inductive DrumLane
  | kick | snare | hatClosed | hatOpen | clap
deriving DecidableEq

/-- Read one lane of a DrumPatterns record. -/
def DrumPatterns.lane (ps : DrumPatterns) : DrumLane → List ℚ
  | .kick => ps.kick
  | .snare => ps.snare
  | .hatClosed => ps.hatClosed
  | .hatOpen => ps.hatOpen
  | .clap => ps.clap

/-- PatternPlayer.setDrumPattern: replace the lane's pattern only when
the supplied array has exactly 16 elements, otherwise do nothing. -/
def setDrumPattern (ps : DrumPatterns) (drum : DrumLane) (pattern : List ℚ) :
    DrumPatterns :=
  if pattern.length = 16 then
    match drum with
    | .kick => { ps with kick := pattern }
    | .snare => { ps with snare := pattern }
    | .hatClosed => { ps with hatClosed := pattern }
    | .hatOpen => { ps with hatOpen := pattern }
    | .clap => { ps with clap := pattern }
  else ps

/-! ### Style data (styles/deepHouse) -/

/-- A bass pattern entry: note name and 16th-note step, mirrors BassNote. -/
structure BassNote where
  note : String
  step : Nat
deriving DecidableEq

/-- A chord progression, mirrors ChordProgression. -/
structure ChordProgression where
  chords : List String
  barsPerChord : Nat
deriving DecidableEq

/-- The deep house drum patterns from the deepHouse style definition. -/
def deepHouseDrums : DrumPatterns :=
  { kick := [1, 0, 0, 0, 1, 0, 0, 0, 1, 0, 0, 0, 1, 0, 0, 0],
    snare := [0, 0, 0, 0, 0, 0, 0, 0, 0, 0, 0, 0, 0, 0, 0, 0],
    hatClosed := [0, 0, 8/10, 0, 0, 0, 8/10, 3/10,
                  0, 0, 8/10, 0, 0, 0, 8/10, 3/10],
    hatOpen := [0, 0, 0, 0, 0, 0, 0, 0, 0, 0, 0, 0, 0, 0, 0, 5/10],
    clap := [0, 0, 0, 0, 1, 0, 0, 0, 0, 0, 0, 0, 1, 0, 0, 0] }

/-- The deep house bass pattern from the deepHouse style definition. -/
def deepHouseBass : List BassNote :=
  [⟨"C2", 0⟩, ⟨"C2", 6⟩, ⟨"G2", 10⟩, ⟨"C2", 14⟩]

/-- The deep house chord progression from the deepHouse style definition. -/
def deepHouseChords : ChordProgression :=
  { chords := ["Cm7", "Fm7", "Gm7", "Fm7"], barsPerChord := 2 }

/-! ### Block player (blockPlayer) -/

/-- The arc phase of a playing block, mirrors BlockPhase. -/
inductive BlockPhase
  | intro | build | main | outro | stopped
deriving DecidableEq

def ARC_INTRO_END : ℚ := 1 / 10
def ARC_BUILD_END : ℚ := 2 / 10
def ARC_OUTRO_START : ℚ := 85 / 100

/-- BlockPlayer.getPhaseForProgress: the phase as a pure function of the
progress fraction, against the fixed ARC thresholds. -/
def getPhaseForProgress (progress : ℚ) : BlockPhase :=
  if progress < ARC_INTRO_END then .intro
  else if progress < ARC_BUILD_END then .build
  else if progress < ARC_OUTRO_START then .main
  else .outro

/-- The modelled BlockPlayer instance state: playback flags, current
phase, the owned bass and pad generator states, whether the 100 ms
progress interval is installed, how many times the completion callbacks
have been fired, and the per-instrument volumes set on phase entry. -/
structure BlockPlayerM where
  isPlaying : Bool
  currentPhase : BlockPhase
  bass : BassState
  pads : PadState
  progressIntervalActive : Bool
  completeCount : Nat
  drumVolume : ℚ
  bassVolume : ℚ
  padVolume : ℚ
deriving DecidableEq

/-- BlockPlayer.transitionToPhase: record the new phase and set the
per-phase instrument volumes. -/
def transitionToPhase (s : BlockPlayerM) (newPhase : BlockPhase) : BlockPlayerM :=
  let s1 := { s with currentPhase := newPhase }
  match newPhase with
  | .intro => { s1 with drumVolume := 6/10, bassVolume := 0, padVolume := 0 }
  | .build => { s1 with drumVolume := 7/10, bassVolume := 4/10, padVolume := 2/10 }
  | .main => { s1 with drumVolume := 8/10, bassVolume := 6/10, padVolume := 4/10 }
  | .outro => { s1 with drumVolume := 6/10, bassVolume := 3/10, padVolume := 2/10 }
  | .stopped => s1

/-- BlockPlayer.stop at audio-context time currentTime: clear the playing
flag and the phase, silence the bass gate at the current time, release
every pad voice at the current time (allNotesOff with no argument uses
the context's current time), and clear the progress interval.  The
clock stop, pattern-player unsubscription and listener cleanup have no
effect on the modelled fields. -/
def blockStop (s : BlockPlayerM) (currentTime : ℚ) : BlockPlayerM :=
  { s with isPlaying := false,
           currentPhase := .stopped,
           bass := bassSilence s.bass currentTime,
           pads := padAllNotesOff s.pads currentTime,
           progressIntervalActive := false }

/-- BlockPlayer.updateProgress at a given progress fraction (the source
reads progress = min 1 (elapsed / 300) from getState): transition the
phase if it changed, then on progress ≥ 1 stop the player and fire the
completion callbacks (counted by completeCount). -/
def updateProgress (s : BlockPlayerM) (progress currentTime : ℚ) : BlockPlayerM :=
  let newPhase := getPhaseForProgress progress
  let s1 := if newPhase ≠ s.currentPhase then transitionToPhase s newPhase else s
  if 1 ≤ progress then
    { blockStop s1 currentTime with completeCount := s1.completeCount + 1 }
  else s1

/-- One firing of the 100 ms progress timer: updateProgress runs only
while the interval installed by play() is still active (stop clears it). -/
def blockTick (s : BlockPlayerM) (progress currentTime : ℚ) : BlockPlayerM :=
  if s.progressIntervalActive then updateProgress s progress currentTime else s

/-- Fold a sequence of progress-timer firings over the block player. -/
def runTicks (s : BlockPlayerM) (ticks : List (ℚ × ℚ)) : BlockPlayerM :=
  ticks.foldl (fun st p => blockTick st p.1 p.2) s

/-- BlockPlayer.onBar with the loaded style's chord progression: while
playing and not in the intro, compute the chord index; on a chord-change
bar (bar divisible by barsPerChord) and outside the outro, release all
pad voices at the tick time and trigger the new chord 10 ms later at
octave 3 with velocity 0.7. -/
def blockOnBar (s : BlockPlayerM) (chords : ChordProgression) (bar : Nat)
    (time : ℚ) : BlockPlayerM :=
  if s.isPlaying = false ∨ s.currentPhase = .intro then s
  else
    let barsPerChord := chords.barsPerChord
    let chordIndex := (bar / barsPerChord) % chords.chords.length
    if bar % barsPerChord = 0 then
      if s.currentPhase ≠ .outro then
        let chordName := chords.chords.getD chordIndex ("")
        let releasedPads := padAllNotesOff s.pads time
        { s with pads := padChordOn releasedPads chordName (time + 1/100) 3 (7/10) }
      else s
    else s

/-! ### Set player (setPlayer) -/

/-- A block configuration as produced by the block editor, mirrors
BlockConfig. -/
structure BlockConfig where
  id : String
  configured : Bool
  bpm : ℚ
  style : String
  instruments : List String
  duration : ℚ
deriving DecidableEq

namespace SetPlayer

/-- The SetPlayer's own state: the filtered block list, the transport
flags and the current block index. -/
structure M where
  blocks : List BlockConfig
  isPlaying : Bool
  isPaused : Bool
  currentBlockIndex : Nat
deriving DecidableEq

/-- The externally visible part of SetPlayer.getState (blockProgress is
delegated to the owned BlockPlayer and not modelled here). -/
structure StateView where
  isPlaying : Bool
  isPaused : Bool
  currentBlockIndex : Nat
  totalBlocks : Nat
deriving DecidableEq

/-- SetPlayer.loadSet: keep only the configured blocks, reset the index
to 0 and clear the transport flags. -/
def loadSet (blocks : List BlockConfig) (_s : M) : M :=
  { blocks := blocks.filter (fun b => b.configured),
    currentBlockIndex := 0,
    isPlaying := false,
    isPaused := false }

/-- SetPlayer.getState, restricted to the modelled fields. -/
def getState (s : M) : StateView :=
  { isPlaying := s.isPlaying,
    isPaused := s.isPaused,
    currentBlockIndex := s.currentBlockIndex,
    totalBlocks := s.blocks.length }

/-- SetPlayer.stop: clear the transport flags and reset the index. -/
def stop (s : M) : M :=
  { s with isPlaying := false, isPaused := false, currentBlockIndex := 0 }

/-- SetPlayer.playCurrentBlock, restricted to the SetPlayer's own fields:
an out-of-range index stops the whole set; otherwise the effect is on
the owned BlockPlayer only. -/
def playCurrentBlock (s : M) : M :=
  if s.blocks.length ≤ s.currentBlockIndex then stop s else s

/-- SetPlayer.play: no-op on an empty set; resume if paused, otherwise
start fresh at block 0 unless already playing. -/
def play (s : M) : M :=
  if s.blocks.length = 0 then s
  else if s.isPaused then playCurrentBlock { s with isPaused := false }
  else if s.isPlaying = false then
    playCurrentBlock { s with isPlaying := true, currentBlockIndex := 0 }
  else s

/-- SetPlayer.pause: no-op unless playing and not yet paused. -/
def pause (s : M) : M :=
  if s.isPlaying = false ∨ s.isPaused then s
  else { s with isPaused := true }

/-- SetPlayer.skip: no-op when not playing or no set is loaded; advance
the index, stopping the whole set when it runs past the end. -/
def skip (s : M) : M :=
  if s.isPlaying = false ∨ s.blocks.length = 0 then s
  else
    let s1 := { s with currentBlockIndex := s.currentBlockIndex + 1 }
    if s.blocks.length ≤ s1.currentBlockIndex then stop s1
    else playCurrentBlock s1

/-- SetPlayer.jumpToBlock: validate the bounds (no-op when out of range),
reposition, and restart playback at the target when currently playing. -/
def jumpToBlock (s : M) (index : Int) : M :=
  if index < 0 ∨ (s.blocks.length : Int) ≤ index then s
  else
    let s1 := { s with currentBlockIndex := index.toNat }
    if s.isPlaying then playCurrentBlock s1 else s1

/-- SetPlayer.getCurrentBlock: the block at the current index, none when
the index is out of range. -/
def getCurrentBlock (s : M) : Option BlockConfig :=
  if s.blocks.length ≤ s.currentBlockIndex then none
  else s.blocks.get? s.currentBlockIndex

/-- A transport call on the SetPlayer (everything that can run after a
loadSet without loading a new set). -/
inductive TransportOp
  | play | pause | stop | skip | jump (index : Int)
deriving DecidableEq

/-- Apply one transport call to the SetPlayer state. -/
def applyOp (s : M) : TransportOp → M
  | .play => play s
  | .pause => pause s
  | .stop => stop s
  | .skip => skip s
  | .jump index => jumpToBlock s index

/-- Apply a sequence of transport calls to the SetPlayer state. -/
def applyOps (s : M) (ops : List TransportOp) : M :=
  ops.foldl applyOp s

end SetPlayer


/-! ## Theorems for the claims -/

/-- C8: chord symbols resolve to the root plus the quality's intervals,
rendered as sharp-spelled note names in the requested octave:
getChordNotes applied to Cm7 at octave 3 gives C3, D#3, G3, A#3, and
applied to F at octave 4 gives F4, A4, C5. -/
theorem c8_chord_resolution :
    getChordNotes ("Cm7") 3 = ["C3", "D#3", "G3", "A#3"] ∧
    getChordNotes ("F") 4 = ["F4", "A4", "C5"] := by
  decide

/-- C10: setDrumPattern silently ignores any override whose length is
not exactly 16, leaving every lane unchanged; a 16-element array
replaces exactly the targeted lane and no other. -/
theorem c10_set_drum_pattern (ps : DrumPatterns) (drum : DrumLane)
    (pattern : List ℚ) :
    (pattern.length ≠ 16 → setDrumPattern ps drum pattern = ps) ∧
    (pattern.length = 16 →
      (setDrumPattern ps drum pattern).lane drum = pattern ∧
      ∀ other : DrumLane, other ≠ drum →
        (setDrumPattern ps drum pattern).lane other = ps.lane other) := by
  constructor
  · intro h
    simp [setDrumPattern, h]
  · intro h
    constructor
    · cases drum <;> simp [setDrumPattern, h, DrumPatterns.lane]
    · intro other ho
      cases drum <;> cases other <;>
        simp_all [setDrumPattern, DrumPatterns.lane]

/-- Witness for C10 at a concrete input: a 1-element override of the
kick lane leaves the deep house patterns unchanged. -/
theorem c10_set_drum_pattern_witness :
    setDrumPattern deepHouseDrums DrumLane.kick [1] = deepHouseDrums :=
  (c10_set_drum_pattern deepHouseDrums DrumLane.kick [1]).1 (by decide)

/-- C9: invalid transport calls are no-ops: skip when not playing or
with an empty block list returns the state unchanged (hence getState is
unchanged), and jumpToBlock with a negative or too-large index returns
the state unchanged. -/
theorem c9_transport_noops (s : SetPlayer.M) (i : Int)
    (h1 : s.isPlaying = false ∨ s.blocks.length = 0)
    (h2 : i < 0 ∨ (s.blocks.length : Int) ≤ i) :
    SetPlayer.skip s = s ∧
    SetPlayer.getState (SetPlayer.skip s) = SetPlayer.getState s ∧
    SetPlayer.jumpToBlock s i = s ∧
    SetPlayer.getState (SetPlayer.jumpToBlock s i) = SetPlayer.getState s := by
  have hskip : SetPlayer.skip s = s := by
    unfold SetPlayer.skip
    rw [if_pos h1]
  have hjump : SetPlayer.jumpToBlock s i = s := by
    unfold SetPlayer.jumpToBlock
    rw [if_pos h2]
  exact ⟨hskip, by rw [hskip], hjump, by rw [hjump]⟩

/-- Witness for C9 at a concrete input: an unloaded SetPlayer (empty
block list, not playing) and an out-of-range index. -/
theorem c9_transport_noops_witness :
    SetPlayer.skip ⟨[], false, false, 0⟩ = ⟨[], false, false, 0⟩ ∧
    SetPlayer.getState (SetPlayer.skip ⟨[], false, false, 0⟩) =
      SetPlayer.getState ⟨[], false, false, 0⟩ ∧
    SetPlayer.jumpToBlock ⟨[], false, false, 0⟩ (-1) = ⟨[], false, false, 0⟩ ∧
    SetPlayer.getState (SetPlayer.jumpToBlock ⟨[], false, false, 0⟩ (-1)) =
      SetPlayer.getState ⟨[], false, false, 0⟩ :=
  c9_transport_noops ⟨[], false, false, 0⟩ (-1) (Or.inl rfl) (Or.inl (by decide))

/-- Every transport call leaves the SetPlayer's loaded block list
untouched (only loadSet replaces it). -/
theorem applyOp_blocks (s : SetPlayer.M) (op : SetPlayer.TransportOp) :
    (SetPlayer.applyOp s op).blocks = s.blocks := by
  have hstop : ∀ t : SetPlayer.M, (SetPlayer.stop t).blocks = t.blocks :=
    fun t => rfl
  have hpcb : ∀ t : SetPlayer.M,
      (SetPlayer.playCurrentBlock t).blocks = t.blocks := by
    intro t
    unfold SetPlayer.playCurrentBlock
    split_ifs with h
    · exact hstop t
    · rfl
  cases op with
  | play =>
    show (SetPlayer.play s).blocks = s.blocks
    unfold SetPlayer.play
    split_ifs <;> first | rfl | rw [hpcb]
  | pause =>
    show (SetPlayer.pause s).blocks = s.blocks
    unfold SetPlayer.pause
    split_ifs <;> rfl
  | stop => exact hstop s
  | skip =>
    show (SetPlayer.skip s).blocks = s.blocks
    unfold SetPlayer.skip
    dsimp only
    split_ifs <;> first | rfl | rw [hpcb]
  | jump index =>
    show (SetPlayer.jumpToBlock s index).blocks = s.blocks
    unfold SetPlayer.jumpToBlock
    dsimp only
    split_ifs <;> first | rfl | rw [hpcb]

/-- A whole sequence of transport calls leaves the block list untouched. -/
theorem applyOps_blocks (s : SetPlayer.M) (ops : List SetPlayer.TransportOp) :
    (SetPlayer.applyOps s ops).blocks = s.blocks := by
  induction ops generalizing s with
  | nil => rfl
  | cons op rest ih =>
    show (SetPlayer.applyOps (SetPlayer.applyOp s op) rest).blocks = s.blocks
    rw [ih, applyOp_blocks]

/-- C5: loadSet keeps exactly the configured entries in order, fully
replacing the previous list, resets the index to 0 and clears the
transport flags; getState's totalBlocks counts the configured entries;
no subsequent transport call ever changes the list or surfaces an
unconfigured block; and loading one unconfigured plus one configured
block yields totalBlocks = 1. -/
theorem c5_load_set (blocks : List BlockConfig) (s : SetPlayer.M)
    (ops : List SetPlayer.TransportOp) :
    (SetPlayer.loadSet blocks s).blocks =
      blocks.filter (fun b => b.configured) ∧
    (SetPlayer.loadSet blocks s).currentBlockIndex = 0 ∧
    (SetPlayer.loadSet blocks s).isPlaying = false ∧
    (SetPlayer.loadSet blocks s).isPaused = false ∧
    (SetPlayer.getState (SetPlayer.loadSet blocks s)).totalBlocks =
      (blocks.filter (fun b => b.configured)).length ∧
    (SetPlayer.loadSet blocks s).blocks.all (fun b => b.configured) = true ∧
    (SetPlayer.applyOps (SetPlayer.loadSet blocks s) ops).blocks =
      blocks.filter (fun b => b.configured) ∧
    (SetPlayer.getCurrentBlock
        (SetPlayer.applyOps (SetPlayer.loadSet blocks s) ops)).all
      (fun b => b.configured) = true ∧
    (SetPlayer.getState (SetPlayer.loadSet
        [⟨("u1"), false, 120, ("deepHouse"), [], 300⟩,
         ⟨("k1"), true, 120, ("deepHouse"), [], 300⟩] s)).totalBlocks = 1 := by
  have hblocks : (SetPlayer.loadSet blocks s).blocks =
      blocks.filter (fun b => b.configured) := rfl
  have hops : (SetPlayer.applyOps (SetPlayer.loadSet blocks s) ops).blocks =
      blocks.filter (fun b => b.configured) := by
    rw [applyOps_blocks, hblocks]
  refine ⟨hblocks, rfl, rfl, rfl, rfl, ?_, hops, ?_, rfl⟩
  · rw [List.all_eq_true]
    intro b hb
    exact List.of_mem_filter (hblocks ▸ hb)
  · unfold SetPlayer.getCurrentBlock
    split_ifs with h
    · rfl
    · cases hget : (SetPlayer.applyOps (SetPlayer.loadSet blocks s)
          ops).blocks.get? (SetPlayer.applyOps (SetPlayer.loadSet blocks s)
          ops).currentBlockIndex with
      | none => rfl
      | some b =>
        have hmem : b ∈ (SetPlayer.applyOps (SetPlayer.loadSet blocks s)
            ops).blocks := List.get?_mem hget
        rw [hops] at hmem
        simp [Option.all, List.of_mem_filter hmem]

/-- Witness for C5 at concrete inputs: two blocks of which one is
configured, loaded into a fresh SetPlayer, followed by one skip call. -/
theorem c5_load_set_witness :
    (SetPlayer.loadSet
        [⟨("u1"), false, 120, ("deepHouse"), [], 300⟩,
         ⟨("k1"), true, 120, ("deepHouse"), [], 300⟩]
        ⟨[], false, false, 0⟩).currentBlockIndex = 0 ∧
    (SetPlayer.getState (SetPlayer.loadSet
        [⟨("u1"), false, 120, ("deepHouse"), [], 300⟩,
         ⟨("k1"), true, 120, ("deepHouse"), [], 300⟩]
        ⟨[], false, false, 0⟩)).totalBlocks = 1 :=
  ⟨(c5_load_set
      [⟨("u1"), false, 120, ("deepHouse"), [], 300⟩,
       ⟨("k1"), true, 120, ("deepHouse"), [], 300⟩]
      ⟨[], false, false, 0⟩ []).2.1,
   (c5_load_set
      [⟨("u1"), false, 120, ("deepHouse"), [], 300⟩,
       ⟨("k1"), true, 120, ("deepHouse"), [], 300⟩]
      ⟨[], false, false, 0⟩ []).2.2.2.2.2.2.2.2⟩

/-- C6: for every scheduled step s, a beat callback fires (with beat
s / 4, at the step's own timestamp) exactly when s is divisible by 4, a
bar callback fires (with the current bar, at the same timestamp) exactly
when s = 0, the 16th-note callback always fires; and iterating the
scheduling loop's advance from step 0 / bar 0 gives step n % 16 and bar
n / 16, so the bar counter increments exactly once per 16 steps. -/
theorem c6_bar_beat_alignment :
    (∀ (s bar b : Nat) (time t : ℚ),
      (ClockEvent.beat b t ∈ scheduleStep s time bar ↔
        s % 4 = 0 ∧ b = s / 4 ∧ t = time) ∧
      (ClockEvent.bar b t ∈ scheduleStep s time bar ↔
        s = 0 ∧ b = bar ∧ t = time) ∧
      ClockEvent.sixteenth s time ∈ scheduleStep s time bar) ∧
    ∀ n : Nat, clockAdvance^[n] (0, 0) = (n % 16, n / 16) := by
  constructor
  · intro s bar b time t
    by_cases h4 : s % 4 = 0 <;> by_cases h0 : s = 0 <;>
      simp [scheduleStep, STEPS_PER_BEAT, h4, h0]
  · intro n
    induction n with
    | zero => rfl
    | succ k ih =>
      rw [Function.iterate_succ_apply', ih]
      simp only [clockAdvance, Prod.ext_iff]
      split_ifs with h <;> constructor <;> omega

/-- Witness for C6 at a concrete step: step 4 fires a beat callback with
beat 1 and no bar callback. -/
theorem c6_bar_beat_alignment_witness :
    (ClockEvent.beat 1 (0 : ℚ) ∈ scheduleStep 4 0 7 ↔
      4 % 4 = 0 ∧ 1 = 4 / 4 ∧ (0 : ℚ) = 0) ∧
    (ClockEvent.bar 1 (0 : ℚ) ∈ scheduleStep 4 0 7 ↔
      4 = 0 ∧ 1 = 7 ∧ (0 : ℚ) = 0) ∧
    ClockEvent.sixteenth 4 (0 : ℚ) ∈ scheduleStep 4 0 7 :=
  (c6_bar_beat_alignment.1 4 7 1 0 0)

/-- Looking a key up in an appended voice list checks the left part
first. -/
theorem voices_lookup_append (l1 l2 : List (String × List ParamEvent))
    (k : String) :
    (l1 ++ l2).lookup k =
      match l1.lookup k with
      | some v => some v
      | none => l2.lookup k := by
  induction l1 with
  | nil => rfl
  | cons p rest ih =>
    rcases p with ⟨a, b⟩
    by_cases h : k == a
    · simp [List.lookup, h]
    · simp only [Bool.not_eq_true] at h
      simp [List.lookup, h, ih]

/-- A key that lookup cannot find occurs zero times among the keys. -/
theorem voices_lookup_none_count (l : List (String × List ParamEvent))
    (k : String) (h : l.lookup k = none) :
    (l.map Prod.fst).count k = 0 := by
  induction l with
  | nil => rfl
  | cons p rest ih =>
    rcases p with ⟨a, b⟩
    by_cases hk : k == a
    · simp [List.lookup, hk] at h
    · simp only [Bool.not_eq_true] at hk
      have hne : ¬a = k := by
        intro he
        rw [he] at hk
        simp at hk
      rw [List.lookup] at h
      rw [hk] at h
      simp [List.count_cons, hne, ih h]

/-- C7: PadSynth.noteOn is idempotent per note name while the note
sounds: a second noteOn for the same note, without an intervening
noteOff, is a no-op (the state is unchanged), and exactly one active
voice is keyed by that note name afterwards. -/
theorem c7_pad_note_on_idempotent (s : PadState) (note : String)
    (t1 t2 vel1 vel2 : ℚ) (h : s.voices.lookup note = none) :
    padNoteOn (padNoteOn s note t1 vel1) note t2 vel2 =
      padNoteOn s note t1 vel1 ∧
    ((padNoteOn (padNoteOn s note t1 vel1) note t2 vel2).voices.map
        Prod.fst).count note = 1 := by
  have h1 : (padNoteOn s note t1 vel1).voices =
      s.voices ++ [(note, padNoteOnEvents t1 vel1)] := by
    simp [padNoteOn, h]
  have h2 : (padNoteOn s note t1 vel1).voices.lookup note =
      some (padNoteOnEvents t1 vel1) := by
    rw [h1, voices_lookup_append, h]
    simp [List.lookup]
  have h3 : padNoteOn (padNoteOn s note t1 vel1) note t2 vel2 =
      padNoteOn s note t1 vel1 := by
    generalize hgen : padNoteOn s note t1 vel1 = s1 at h2 ⊢
    simp [padNoteOn, h2]
  refine ⟨h3, ?_⟩
  rw [h3, h1]
  simp [List.count_append, voices_lookup_none_count s.voices note h]

/-- Witness for C7 at a concrete input: a fresh pad synth, the note C4,
two noteOn calls at times 0 and 1. -/
theorem c7_pad_note_on_idempotent_witness :
    padNoteOn (padNoteOn ⟨[], []⟩ ("C4") 0 1) ("C4") 1 1 =
      padNoteOn ⟨[], []⟩ ("C4") 0 1 ∧
    ((padNoteOn (padNoteOn ⟨[], []⟩ ("C4") 0 1) ("C4") 1 1).voices.map
        Prod.fst).count ("C4") = 1 :=
  c7_pad_note_on_idempotent ⟨[], []⟩ ("C4") 0 1 1 1 rfl

/-- The bounded MIDI round trip underlying C1: for every MIDI note from
12 to 127 the generated name parses back to the same MIDI number. -/
theorem midi_name_roundtrip :
    ∀ m : Nat, m < 128 → 12 ≤ m → noteNameToMidi (midiToNoteName m) = m := by
  decide

/-- Counterexample for C1 as stated: at MIDI 0 the generated name is
C-1, whose negative octave the note-name regex rejects, so it parses
back to the default 60 (middle C); the frequencies then differ (the
frequency map is strictly increasing in the MIDI number). -/
theorem c1_round_trip_counterexample :
    midiToNoteName 0 = "C-1" ∧
    noteNameToMidi (midiToNoteName 0) = 60 ∧
    midiToFrequency 0 < midiToFrequency 60 ∧
    noteNameToFrequency (midiToNoteName 0) ≠ midiToFrequency 0 := by
  have hlt : midiToFrequency 0 < midiToFrequency 60 := by
    unfold midiToFrequency
    have hb : (1 : ℝ) < 2 := by norm_num
    have := (Real.rpow_lt_rpow_left_iff hb).2
      (show (((0 : Nat) : ℝ) - 69) / 12 < (((60 : Nat) : ℝ) - 69) / 12 by
        norm_num)
    nlinarith [Real.rpow_pos_of_pos (show (0:ℝ) < 2 by norm_num)
      (((0 : ℝ) - 69) / 12)]
  have hmid : noteNameToMidi (midiToNoteName 0) = 60 := by decide
  refine ⟨by decide, hmid, hlt, ?_⟩
  unfold noteNameToFrequency
  rw [hmid]
  exact ne_of_gt hlt

/-- C1 amended: the round trip noteNameToFrequency after midiToNoteName
agrees with midiToFrequency (exactly, in the real-number reading) for
every MIDI integer from 12 to 127; below 12 the generated octave is -1
and the name fails to parse back. -/
theorem c1_round_trip_amended (m : Nat) (h1 : 12 ≤ m) (h2 : m < 128) :
    noteNameToMidi (midiToNoteName m) = m ∧
    noteNameToFrequency (midiToNoteName m) = midiToFrequency m := by
  have key : noteNameToMidi (midiToNoteName m) = m := midi_name_roundtrip m h2 h1
  exact ⟨key, by unfold noteNameToFrequency; rw [key]⟩

/-- Witness for C1 at a concrete input: MIDI 69 (A4) round-trips. -/
theorem c1_round_trip_witness :
    noteNameToMidi (midiToNoteName 69) = 69 ∧
    noteNameToFrequency (midiToNoteName 69) = midiToFrequency 69 :=
  c1_round_trip_amended 69 (by decide) (by decide)

/-- transitionToPhase only changes the phase and volumes: the completion
counter, the interval flag and the playing flag are untouched. -/
theorem transitionToPhase_invariants (s : BlockPlayerM) (ph : BlockPhase) :
    (transitionToPhase s ph).completeCount = s.completeCount ∧
    (transitionToPhase s ph).progressIntervalActive =
      s.progressIntervalActive ∧
    (transitionToPhase s ph).isPlaying = s.isPlaying := by
  cases ph <;> exact ⟨rfl, rfl, rfl⟩

/-- Once the progress interval has been cleared, further firings of the
progress timer change nothing at all. -/
theorem runTicks_inactive (s : BlockPlayerM) (ticks : List (ℚ × ℚ))
    (h : s.progressIntervalActive = false) : runTicks s ticks = s := by
  induction ticks with
  | nil => rfl
  | cons p rest ih =>
    show runTicks (blockTick s p.1 p.2) rest = s
    have : blockTick s p.1 p.2 = s := by simp [blockTick, h]
    rw [this, ih]

/-- C4: the phase is a pure function of progress with the fixed
thresholds 0.10 / 0.20 / 0.85 (checked at 0.05, 0.15, 0.5, 0.9 and on
each whole interval); and once progress reaches 1 with the progress
interval still active, the player stops itself (playing flag cleared,
phase stopped, interval cleared) and fires the completion callbacks
exactly once: the counter rises by one and every later timer firing
leaves the state untouched. -/
theorem c4_phase_thresholds_and_completion (s : BlockPlayerM) (p ct : ℚ)
    (hA : s.progressIntervalActive = true) (hp : 1 ≤ p)
    (ticks : List (ℚ × ℚ)) :
    getPhaseForProgress (5/100) = BlockPhase.intro ∧
    getPhaseForProgress (15/100) = BlockPhase.build ∧
    getPhaseForProgress (5/10) = BlockPhase.main ∧
    getPhaseForProgress (9/10) = BlockPhase.outro ∧
    (∀ q : ℚ, q < 1/10 → getPhaseForProgress q = BlockPhase.intro) ∧
    (∀ q : ℚ, 1/10 ≤ q → q < 2/10 → getPhaseForProgress q = BlockPhase.build) ∧
    (∀ q : ℚ, 2/10 ≤ q → q < 85/100 → getPhaseForProgress q = BlockPhase.main) ∧
    (∀ q : ℚ, 85/100 ≤ q → getPhaseForProgress q = BlockPhase.outro) ∧
    (blockTick s p ct).isPlaying = false ∧
    (blockTick s p ct).currentPhase = BlockPhase.stopped ∧
    (blockTick s p ct).progressIntervalActive = false ∧
    (blockTick s p ct).completeCount = s.completeCount + 1 ∧
    runTicks (blockTick s p ct) ticks = blockTick s p ct := by
  have harc : ∀ q : ℚ,
      (q < 1/10 → getPhaseForProgress q = BlockPhase.intro) ∧
      (1/10 ≤ q → q < 2/10 → getPhaseForProgress q = BlockPhase.build) ∧
      (2/10 ≤ q → q < 85/100 → getPhaseForProgress q = BlockPhase.main) ∧
      (85/100 ≤ q → getPhaseForProgress q = BlockPhase.outro) := by
    intro q
    unfold getPhaseForProgress ARC_INTRO_END ARC_BUILD_END ARC_OUTRO_START
    refine ⟨fun h1 => ?_, fun h1 h2 => ?_, fun h1 h2 => ?_, fun h1 => ?_⟩ <;>
      split_ifs <;> first | rfl | (exfalso; linarith)
  have hstep : blockTick s p ct = updateProgress s p ct := by
    simp [blockTick, hA]
  have hs1cc : (if getPhaseForProgress p ≠ s.currentPhase then
      transitionToPhase s (getPhaseForProgress p) else s).completeCount =
      s.completeCount := by
    split_ifs with h
    · exact (transitionToPhase_invariants s _).1
    · rfl
  have hupd : updateProgress s p ct =
      { blockStop (if getPhaseForProgress p ≠ s.currentPhase then
          transitionToPhase s (getPhaseForProgress p) else s) ct with
        completeCount := (if getPhaseForProgress p ≠ s.currentPhase then
          transitionToPhase s (getPhaseForProgress p) else s).completeCount
          + 1 } := by
    unfold updateProgress
    simp only [hp, if_true]
  refine ⟨(harc (5/100)).1 (by norm_num),
    (harc (15/100)).2.1 (by norm_num) (by norm_num),
    (harc (5/10)).2.2.1 (by norm_num) (by norm_num),
    (harc (9/10)).2.2.2 (by norm_num),
    fun q => (harc q).1, fun q => (harc q).2.1, fun q => (harc q).2.2.1,
    fun q => (harc q).2.2.2, ?_, ?_, ?_, ?_, ?_⟩
  · rw [hstep, hupd]
    rfl
  · rw [hstep, hupd]
    rfl
  · rw [hstep, hupd]
    rfl
  · rw [hstep, hupd]
    show (if getPhaseForProgress p ≠ s.currentPhase then
      transitionToPhase s (getPhaseForProgress p) else s).completeCount + 1 =
      s.completeCount + 1
    rw [hs1cc]
  · apply runTicks_inactive
    rw [hstep, hupd]
    rfl

/-- Witness for C4 at a concrete input: a playing block player in the
main phase with the progress interval active, progress exactly 1. -/
theorem c4_phase_thresholds_and_completion_witness :
    getPhaseForProgress (5/100) = BlockPhase.intro ∧
    getPhaseForProgress (15/100) = BlockPhase.build ∧
    getPhaseForProgress (5/10) = BlockPhase.main ∧
    getPhaseForProgress (9/10) = BlockPhase.outro ∧
    (∀ q : ℚ, q < 1/10 → getPhaseForProgress q = BlockPhase.intro) ∧
    (∀ q : ℚ, 1/10 ≤ q → q < 2/10 → getPhaseForProgress q = BlockPhase.build) ∧
    (∀ q : ℚ, 2/10 ≤ q → q < 85/100 → getPhaseForProgress q = BlockPhase.main) ∧
    (∀ q : ℚ, 85/100 ≤ q → getPhaseForProgress q = BlockPhase.outro) ∧
    (blockTick ⟨true, BlockPhase.main, ⟨[], false⟩, ⟨[], []⟩, true, 0,
        8/10, 6/10, 4/10⟩ 1 300).isPlaying = false ∧
    (blockTick ⟨true, BlockPhase.main, ⟨[], false⟩, ⟨[], []⟩, true, 0,
        8/10, 6/10, 4/10⟩ 1 300).currentPhase = BlockPhase.stopped ∧
    (blockTick ⟨true, BlockPhase.main, ⟨[], false⟩, ⟨[], []⟩, true, 0,
        8/10, 6/10, 4/10⟩ 1 300).progressIntervalActive = false ∧
    (blockTick ⟨true, BlockPhase.main, ⟨[], false⟩, ⟨[], []⟩, true, 0,
        8/10, 6/10, 4/10⟩ 1 300).completeCount =
      (⟨true, BlockPhase.main, ⟨[], false⟩, ⟨[], []⟩, true, 0,
        8/10, 6/10, 4/10⟩ : BlockPlayerM).completeCount + 1 ∧
    runTicks (blockTick ⟨true, BlockPhase.main, ⟨[], false⟩, ⟨[], []⟩, true,
        0, 8/10, 6/10, 4/10⟩ 1 300) [(1, 301), (1, 302)] =
      blockTick ⟨true, BlockPhase.main, ⟨[], false⟩, ⟨[], []⟩, true, 0,
        8/10, 6/10, 4/10⟩ 1 300 :=
  c4_phase_thresholds_and_completion
    ⟨true, BlockPhase.main, ⟨[], false⟩, ⟨[], []⟩, true, 0, 8/10, 6/10, 4/10⟩
    1 300 rfl (by norm_num) [(1, 301), (1, 302)]


/-- PadSynth.noteOn never touches the released-envelope list. -/
theorem padNoteOn_released (s : PadState) (note : String) (t v : ℚ) :
    (padNoteOn s note t v).released = s.released := by
  unfold padNoteOn
  split_ifs <;> rfl

/-- PadSynth.chordOn never touches the released-envelope list. -/
theorem padChordOn_released (s : PadState) (c : String) (t : ℚ) (o : Nat)
    (v : ℚ) : (padChordOn s c t o v).released = s.released := by
  unfold padChordOn
  generalize getChordNotes c o = notes
  induction notes generalizing s with
  | nil => rfl
  | cons n rest ih =>
    show (rest.foldl (fun st note => padNoteOn st note t v)
      (padNoteOn s n t v)).released = s.released
    rw [ih (padNoteOn s n t v), padNoteOn_released]

/-- Counterexample for C3 as stated: a playing block player in the
outro phase (which is not the intro) receives the bar tick (0, 0); bar 0
is a chord-change bar (0 % 2 = 0), yet nothing happens — no pad voice is
released and no chord is triggered — because onBar additionally skips
chord changes during the outro. -/
theorem c3_on_bar_counterexample :
    blockOnBar ⟨true, BlockPhase.outro, ⟨[], false⟩,
        ⟨[("C3", padNoteOnEvents 0 (7/10))], []⟩, true, 0, 6/10, 3/10, 2/10⟩
      deepHouseChords 0 0 =
      ⟨true, BlockPhase.outro, ⟨[], false⟩,
        ⟨[("C3", padNoteOnEvents 0 (7/10))], []⟩, true, 0, 6/10, 3/10, 2/10⟩ ∧
    (blockOnBar ⟨true, BlockPhase.outro, ⟨[], false⟩,
        ⟨[("C3", padNoteOnEvents 0 (7/10))], []⟩, true, 0, 6/10, 3/10, 2/10⟩
      deepHouseChords 0 0).pads.released = [] ∧
    (blockOnBar ⟨true, BlockPhase.outro, ⟨[], false⟩,
        ⟨[("C3", padNoteOnEvents 0 (7/10))], []⟩, true, 0, 6/10, 3/10, 2/10⟩
      deepHouseChords 0 0).pads ≠
      padChordOn
        (padAllNotesOff (⟨[("C3", padNoteOnEvents 0 (7/10))], []⟩ : PadState)
          0)
        ("Cm7") (0 + 1/100) 3 (7/10) := by
  have hfix : blockOnBar ⟨true, BlockPhase.outro, ⟨[], false⟩,
      ⟨[("C3", padNoteOnEvents 0 (7/10))], []⟩, true, 0, 6/10, 3/10, 2/10⟩
      deepHouseChords 0 0 =
      ⟨true, BlockPhase.outro, ⟨[], false⟩,
        ⟨[("C3", padNoteOnEvents 0 (7/10))], []⟩, true, 0, 6/10, 3/10,
        2/10⟩ := by
    simp [blockOnBar, deepHouseChords]
  have hoff : (padAllNotesOff
      (⟨[("C3", padNoteOnEvents 0 (7/10))], []⟩ : PadState) 0).released =
      [padNoteOffEvents (padNoteOnEvents 0 (7/10)) 0] := by
    simp [padAllNotesOff, padNoteOff, List.lookup]
  refine ⟨hfix, by rw [hfix], ?_⟩
  intro heq
  have hrel := congrArg PadState.released heq
  rw [hfix, padChordOn_released, hoff] at hrel
  simp at hrel

/-- C3 amended: on a bar tick of a playing block player whose phase is
neither intro nor outro, if the bar is divisible by barsPerChord then
all sounding pad voices are released at the tick time and the chord at
index (bar / barsPerChord) % progression.length is triggered 10 ms
later (octave 3, velocity 0.7), everything else unchanged; on
non-chord-change bars nothing happens.  (During the outro, chord-change
bars trigger nothing, as the counterexample shows.) -/
theorem c3_on_bar_amended (s : BlockPlayerM) (chords : ChordProgression)
    (bar : Nat) (time : ℚ)
    (hplay : s.isPlaying = true)
    (hintro : s.currentPhase ≠ BlockPhase.intro)
    (houtro : s.currentPhase ≠ BlockPhase.outro)
    (hmod : bar % chords.barsPerChord = 0) :
    (blockOnBar s chords bar time).pads =
      padChordOn (padAllNotesOff s.pads time)
        (chords.chords.getD ((bar / chords.barsPerChord) % chords.chords.length) (""))
        (time + 1/100) 3 (7/10) ∧
    (blockOnBar s chords bar time).bass = s.bass ∧
    (blockOnBar s chords bar time).isPlaying = s.isPlaying ∧
    (blockOnBar s chords bar time).currentPhase = s.currentPhase ∧
    (∀ bar2, bar2 % chords.barsPerChord ≠ 0 →
      blockOnBar s chords bar2 time = s) := by
  have hred : blockOnBar s chords bar time =
      { s with pads :=
          padChordOn (padAllNotesOff s.pads time) (chords.chords.getD ((bar / chords.barsPerChord) % chords.chords.length) ("")) (time + 1/100) 3 (7/10) } := by
    simp [blockOnBar, hplay, hintro, houtro, hmod]
  refine ⟨by rw [hred], by rw [hred], by rw [hred], by rw [hred], ?_⟩
  intro bar2 h2
  simp [blockOnBar, hplay, hintro, houtro, h2]

/-- Witness for C3 at a concrete input: main phase, bar 2 with the deep
house progression (barsPerChord 2), one sounding voice. -/
theorem c3_on_bar_amended_witness :
    (blockOnBar ⟨true, BlockPhase.main, ⟨[], false⟩,
        ⟨[("C3", padNoteOnEvents 0 (7/10))], []⟩, true, 0, 8/10, 6/10, 4/10⟩
      deepHouseChords 2 10).pads =
      padChordOn
        (padAllNotesOff (⟨[("C3", padNoteOnEvents 0 (7/10))], []⟩ : PadState)
          10)
        (deepHouseChords.chords.getD ((2 / deepHouseChords.barsPerChord) % deepHouseChords.chords.length) (""))
        (10 + 1/100) 3 (7/10) ∧
    (blockOnBar ⟨true, BlockPhase.main, ⟨[], false⟩,
        ⟨[("C3", padNoteOnEvents 0 (7/10))], []⟩, true, 0, 8/10, 6/10, 4/10⟩
      deepHouseChords 2 10).bass = ⟨[], false⟩ ∧
    (blockOnBar ⟨true, BlockPhase.main, ⟨[], false⟩,
        ⟨[("C3", padNoteOnEvents 0 (7/10))], []⟩, true, 0, 8/10, 6/10, 4/10⟩
      deepHouseChords 2 10).isPlaying = true ∧
    (blockOnBar ⟨true, BlockPhase.main, ⟨[], false⟩,
        ⟨[("C3", padNoteOnEvents 0 (7/10))], []⟩, true, 0, 8/10, 6/10, 4/10⟩
      deepHouseChords 2 10).currentPhase = BlockPhase.main ∧
    (∀ bar2, bar2 % deepHouseChords.barsPerChord ≠ 0 →
      blockOnBar ⟨true, BlockPhase.main, ⟨[], false⟩,
          ⟨[("C3", padNoteOnEvents 0 (7/10))], []⟩, true, 0, 8/10, 6/10,
          4/10⟩ deepHouseChords bar2 10 =
        ⟨true, BlockPhase.main, ⟨[], false⟩,
          ⟨[("C3", padNoteOnEvents 0 (7/10))], []⟩, true, 0, 8/10, 6/10,
          4/10⟩) :=
  c3_on_bar_amended
    ⟨true, BlockPhase.main, ⟨[], false⟩,
      ⟨[("C3", padNoteOnEvents 0 (7/10))], []⟩, true, 0, 8/10, 6/10, 4/10⟩
    deepHouseChords 2 10 rfl (by decide) (by decide) (by decide)

/-- Events strictly before a hard set-value at ct are irrelevant when
evaluating at or after ct: the walk always reaches the set event and
restarts from its value. -/
theorem paramValueFrom_skip (l tail : List ParamEvent) (c ct τ : ℚ)
    (hl : ∀ e ∈ l, e.time < ct) (hτ : ct ≤ τ) :
    ∀ v0 t0 : ℚ,
      paramValueFrom τ v0 t0 (l ++ ParamEvent.setValue c ct :: tail) =
        paramValueFrom τ c ct tail := by
  induction l with
  | nil =>
    intro v0 t0
    show paramValueFrom τ v0 t0 (ParamEvent.setValue c ct :: tail) = _
    simp only [paramValueFrom]
    rw [if_neg (not_lt.2 hτ)]
  | cons e rest ih =>
    intro v0 t0
    have he : e.time < ct := hl e (List.mem_cons_self e rest)
    have hrest : ∀ x ∈ rest, x.time < ct :=
      fun x hx => hl x (List.mem_cons_of_mem e hx)
    cases e with
    | setValue v t =>
      simp only [ParamEvent.time] at he
      show paramValueFrom τ v0 t0
        (ParamEvent.setValue v t :: (rest ++ ParamEvent.setValue c ct :: tail)) = _
      simp only [paramValueFrom]
      rw [if_neg (not_lt.2 (le_trans he.le hτ))]
      exact ih hrest v t
    | linearRamp v t =>
      simp only [ParamEvent.time] at he
      show paramValueFrom τ v0 t0
        (ParamEvent.linearRamp v t :: (rest ++ ParamEvent.setValue c ct :: tail)) = _
      simp only [paramValueFrom]
      rw [if_neg (not_lt.2 (le_trans he.le hτ))]
      exact ih hrest v t

/-- Every event kept by cancelScheduledValues lies strictly before the
cancel time. -/
theorem mem_cancel_lt (evs : List ParamEvent) (ct : ℚ) :
    ∀ e ∈ cancelScheduledValues evs ct, e.time < ct := by
  intro e he
  rw [cancelScheduledValues, List.mem_filter] at he
  exact of_decide_eq_true he.2

/-- After BassSynth.silence at time ct, the gate gain is zero at every
time from ct on: the cut is immediate and permanent. -/
theorem bassSilence_gate_zero (s : BassState) (ct τ : ℚ) (hτ : ct ≤ τ) :
    paramValue (bassSilence s ct).gateEvents τ = 0 := by
  show paramValueFrom τ 0 0
    (cancelScheduledValues s.gateEvents ct ++ [ParamEvent.setValue 0 ct]) = 0
  rw [paramValueFrom_skip (cancelScheduledValues s.gateEvents ct) [] 0 ct τ
    (mem_cancel_lt s.gateEvents ct) hτ 0 0]
  rfl

/-- After PadSynth.noteOff at time ct, a voice whose envelope gain was
positive at ct still has positive gain at every time strictly between
ct and ct plus the 2 s release: the release is a ramp, not a cut. -/
theorem padNoteOff_gain_pos (evs : List ParamEvent) (ct τ : ℚ)
    (h1 : ct < τ) (h2 : τ < ct + padReleaseTime)
    (h0 : 0 < paramValue evs ct) :
    0 < paramValue (padNoteOffEvents evs ct) τ := by
  have hτ : ct ≤ τ := h1.le
  show 0 < paramValueFrom τ 0 0 (cancelScheduledValues evs ct ++
    ParamEvent.setValue (paramValue evs ct) ct ::
      [ParamEvent.linearRamp 0 (ct + padReleaseTime)])
  rw [paramValueFrom_skip (cancelScheduledValues evs ct)
    [ParamEvent.linearRamp 0 (ct + padReleaseTime)] (paramValue evs ct) ct τ
    (mem_cancel_lt evs ct) hτ 0 0]
  simp only [paramValueFrom]
  rw [if_pos h2, if_pos ⟨lt_of_le_of_lt hτ h2, h1⟩]
  have hkey : paramValue evs ct +
      (0 - paramValue evs ct) * (τ - ct) / (ct + padReleaseTime - ct) =
      paramValue evs ct * (2 - (τ - ct)) / 2 := by
    unfold padReleaseTime
    ring
  rw [hkey]
  have hlt : τ - ct < 2 := by
    have : padReleaseTime = 2 := rfl
    linarith [h2, this ▸ h2]
  exact div_pos (mul_pos h0 (by linarith)) (by norm_num)

/-- PadSynth.allNotesOff on a voice map with pairwise distinct note
names: every voice is released (its envelope gets the noteOff events)
and the voice map empties. -/
theorem padAllNotesOff_spec (voices : List (String × List ParamEvent))
    (released : List (List ParamEvent)) (t : ℚ)
    (hkeys : (voices.map Prod.fst).Nodup) :
    padAllNotesOff ⟨voices, released⟩ t =
      ⟨[], released ++ voices.map (fun p => padNoteOffEvents p.2 t)⟩ := by
  induction voices generalizing released with
  | nil => simp [padAllNotesOff]
  | cons p rest ih =>
    rcases p with ⟨k, evs⟩
    rw [List.map_cons, List.nodup_cons] at hkeys
    obtain ⟨hk, hrest⟩ := hkeys
    have hfilter : List.filter (fun q => q.1 ≠ k) rest = rest := by
      rw [List.filter_eq_self]
      intro q hq
      have hmem : q.1 ∈ rest.map Prod.fst := List.mem_map_of_mem Prod.fst hq
      simp only [decide_eq_true_eq]
      intro hqk
      exact hk (hqk ▸ hmem)
    have hstep : padNoteOff ⟨(k, evs) :: rest, released⟩ k t =
        ⟨rest, released ++ [padNoteOffEvents evs t]⟩ := by
      unfold padNoteOff
      simp [List.lookup, List.filter_cons, hfilter]
      intro a b hab hak
      have hmem : a ∈ rest.map Prod.fst := List.mem_map_of_mem Prod.fst hab
      exact hk (hak ▸ hmem)
    calc padAllNotesOff ⟨(k, evs) :: rest, released⟩ t
        = (rest.map Prod.fst).foldl (fun st note => padNoteOff st note t)
            (padNoteOff ⟨(k, evs) :: rest, released⟩ k t) := rfl
      _ = (rest.map Prod.fst).foldl (fun st note => padNoteOff st note t)
            ⟨rest, released ++ [padNoteOffEvents evs t]⟩ := by rw [hstep]
      _ = padAllNotesOff ⟨rest, released ++ [padNoteOffEvents evs t]⟩ t :=
            rfl
      _ = ⟨[], (released ++ [padNoteOffEvents evs t]) ++
            rest.map (fun p => padNoteOffEvents p.2 t)⟩ := ih _ hrest
      _ = ⟨[], released ++ ((k, evs) :: rest).map
            (fun p => padNoteOffEvents p.2 t)⟩ := by
            rw [List.append_assoc]
            rfl

/-- Counterexample for C2 as stated: BlockPlayer.stop releases the pad
voices (allNotesOff) instead of hard-silencing them, so a pad voice's
output gain remains above zero after stop returns.  Concretely: one pad
voice triggered at time 0 with velocity 0.7 is at its 0.392 sustain
level when stop runs at time 10; one second after the stop its envelope
gain is still 49/250 = 0.196, reaching zero only at time 12. -/
theorem c2_stop_counterexample :
    (blockStop ⟨true, BlockPhase.main, ⟨[], false⟩,
        ⟨[("C3", padNoteOnEvents 0 (7/10))], []⟩, true, 0, 8/10, 6/10, 4/10⟩
      10).pads.released =
      [padNoteOffEvents (padNoteOnEvents 0 (7/10)) 10] ∧
    paramValue (padNoteOffEvents (padNoteOnEvents 0 (7/10)) 10) 11 =
      49/250 ∧
    0 < paramValue (padNoteOffEvents (padNoteOnEvents 0 (7/10)) 10) 11 := by
  have hval : paramValue (padNoteOffEvents (padNoteOnEvents 0 (7/10)) 10) 11
      = 49/250 := by
    norm_num [padNoteOffEvents, padNoteOnEvents, paramValue, paramValueFrom,
      cancelScheduledValues, ParamEvent.time, clamp01, padAttackTime,
      padDecayTime, padSustainLevel, padReleaseTime, List.filter, min_def,
      max_def]
  refine ⟨?_, hval, by rw [hval]; norm_num⟩
  show (padAllNotesOff
      (⟨[("C3", padNoteOnEvents 0 (7/10))], []⟩ : PadState) 10).released = _
  rw [padAllNotesOff_spec [("C3", padNoteOnEvents 0 (7/10))] [] 10 (by simp)]
  rfl

/-- C2 amended: BlockPlayer.stop does silence the bass gate immediately
and permanently (cancelled and set to zero at the current time, zero at
every later time) and stops the player, and it releases every pad voice
at the current time — but a released pad voice ramps to zero over the
2 s release rather than being cut: a voice with positive gain at stop
time still has positive gain at any time before stop + 2 s. -/
theorem c2_stop_amended (s : BlockPlayerM) (ct : ℚ)
    (hkeys : (s.pads.voices.map Prod.fst).Nodup) :
    (∀ τ, ct ≤ τ → paramValue (blockStop s ct).bass.gateEvents τ = 0) ∧
    (blockStop s ct).bass.isPlaying = false ∧
    (blockStop s ct).isPlaying = false ∧
    (blockStop s ct).currentPhase = BlockPhase.stopped ∧
    (blockStop s ct).progressIntervalActive = false ∧
    (blockStop s ct).pads.voices = [] ∧
    (blockStop s ct).pads.released =
      s.pads.released ++
        s.pads.voices.map (fun p => padNoteOffEvents p.2 ct) ∧
    (∀ evs : List ParamEvent, ∀ τ : ℚ, ct < τ → τ < ct + padReleaseTime →
      0 < paramValue evs ct → 0 < paramValue (padNoteOffEvents evs ct) τ) := by
  have hpads : (blockStop s ct).pads =
      (⟨[], s.pads.released ++ s.pads.voices.map
        (fun p => padNoteOffEvents p.2 ct)⟩ : PadState) :=
    padAllNotesOff_spec s.pads.voices s.pads.released ct hkeys
  exact ⟨fun τ hτ => bassSilence_gate_zero s.bass ct τ hτ, rfl, rfl, rfl, rfl,
    by rw [hpads], by rw [hpads],
    fun evs τ h1 h2 h0 => padNoteOff_gain_pos evs ct τ h1 h2 h0⟩

/-- Witness for C2 at a concrete input: a playing block player with one
sounding pad voice and a bass gate holding 1/2 from time 5, stopped at
time 10. -/
theorem c2_stop_amended_witness :
    (∀ τ, (10 : ℚ) ≤ τ →
      paramValue (blockStop ⟨true, BlockPhase.main,
          ⟨[ParamEvent.setValue (1/2) 5], true⟩,
          ⟨[("C3", padNoteOnEvents 0 (7/10))], []⟩, true, 0, 8/10, 6/10,
          4/10⟩ 10).bass.gateEvents τ = 0) ∧
    (blockStop ⟨true, BlockPhase.main, ⟨[ParamEvent.setValue (1/2) 5], true⟩,
        ⟨[("C3", padNoteOnEvents 0 (7/10))], []⟩, true, 0, 8/10, 6/10, 4/10⟩
      10).bass.isPlaying = false ∧
    (blockStop ⟨true, BlockPhase.main, ⟨[ParamEvent.setValue (1/2) 5], true⟩,
        ⟨[("C3", padNoteOnEvents 0 (7/10))], []⟩, true, 0, 8/10, 6/10, 4/10⟩
      10).isPlaying = false ∧
    (blockStop ⟨true, BlockPhase.main, ⟨[ParamEvent.setValue (1/2) 5], true⟩,
        ⟨[("C3", padNoteOnEvents 0 (7/10))], []⟩, true, 0, 8/10, 6/10, 4/10⟩
      10).currentPhase = BlockPhase.stopped ∧
    (blockStop ⟨true, BlockPhase.main, ⟨[ParamEvent.setValue (1/2) 5], true⟩,
        ⟨[("C3", padNoteOnEvents 0 (7/10))], []⟩, true, 0, 8/10, 6/10, 4/10⟩
      10).progressIntervalActive = false ∧
    (blockStop ⟨true, BlockPhase.main, ⟨[ParamEvent.setValue (1/2) 5], true⟩,
        ⟨[("C3", padNoteOnEvents 0 (7/10))], []⟩, true, 0, 8/10, 6/10, 4/10⟩
      10).pads.voices = [] ∧
    (blockStop ⟨true, BlockPhase.main, ⟨[ParamEvent.setValue (1/2) 5], true⟩,
        ⟨[("C3", padNoteOnEvents 0 (7/10))], []⟩, true, 0, 8/10, 6/10, 4/10⟩
      10).pads.released =
      [] ++ [("C3", padNoteOnEvents 0 (7/10))].map
        (fun p => padNoteOffEvents p.2 10) ∧
    (∀ evs : List ParamEvent, ∀ τ : ℚ, (10 : ℚ) < τ →
      τ < 10 + padReleaseTime → 0 < paramValue evs 10 →
      0 < paramValue (padNoteOffEvents evs 10) τ) :=
  c2_stop_amended
    ⟨true, BlockPhase.main, ⟨[ParamEvent.setValue (1/2) 5], true⟩,
      ⟨[("C3", padNoteOnEvents 0 (7/10))], []⟩, true, 0, 8/10, 6/10, 4/10⟩
    10 (by simp)
